import Mathlib

/-!
Verification of the sensorfabric-uh core: the watermark-driven sync loop
(`src/ultrahuman/uh_uploader.py`), the row-to-column flattener and
timestamp normalizer (`src/ultrahuman/utils.py`), the error classifier and
dead-letter handler (`src/ultrahuman/error_handling.py`), and the metric
fetch error wrapping (`src/ultrahuman/uh.py`).

The Python values moved around by this code are JSON-like structures;
we embed them as the inductive type `J`.  Python `dict`s are association
lists in insertion order (CPython guarantees insertion order); writing to
an existing key replaces its value in place, writing a fresh key appends.
Numbers are embedded as `Int` (the payload timestamps this code consumes
are integers; floats are not needed by any claim checked here).
-/

namespace UH

/-- JSON-like values as handled by the Python source. -/
inductive J where
  | null
  | b (x : Bool)
  | i (n : Int)
  | s (str : String)
  | arr (xs : List J)
  | obj (fields : List (String × J))

/-- Python `d[key]` lookup returning an `Option` (first binding wins, as in
a real dict where keys are unique). -/
def lookupJ (fields : List (String × J)) (key : String) : Option J :=
  match fields with
  | [] => none
  | (k, v) :: rest => if k = key then some v else lookupJ rest key

/-- Python `d.get(key, default)`. -/
def getJD (fields : List (String × J)) (key : String) (dflt : J) : J :=
  (lookupJ fields key).getD dflt

/-- Python `d[key] = value`: replace the value at the key's original
position if present, otherwise append the new binding at the end. -/
def setKey (fields : List (String × J)) (key : String) (v : J) : List (String × J) :=
  match fields with
  | [] => [(key, v)]
  | (k, w) :: rest => if k = key then (k, v) :: rest else (k, w) :: setKey rest key v

/-- Whether a dict has a key (Python `key in d`). -/
def hasKey (fields : List (String × J)) (key : String) : Bool :=
  match fields with
  | [] => false
  | (k, _) :: rest => k = key || hasKey rest key

/-- Number of bindings of a key in an association list; `1` for every key
present in a genuine dict. -/
def countKey (fields : List (String × J)) (key : String) : Nat :=
  match fields with
  | [] => 0
  | (k, _) :: rest => (if k = key then 1 else 0) + countKey rest key

/-- Keys of a dict in insertion order. -/
def keysOf (fields : List (String × J)) : List String := fields.map Prod.fst

/-- Substring test (Python `needle in hay`), executable. -/
def strHas (hay needle : String) : Bool :=
  hay.toList.tails.any (fun t => needle.toList.isPrefixOf t)

/-- Python `str.lower()` for the ASCII identifiers this code inspects. -/
def lowerStr (s1 : String) : String := ((s1.toList.map Char.toLower).asString)

end UH

namespace UH

/-! ## `flatten_json_to_columns` (src/ultrahuman/utils.py lines 22-118)

The inner `_flatten_recursive` walks the structure.  A dict folds the
flattened sub-results into the accumulator with `dict.update` semantics;
a list of dicts is transposed (the union of keys is gathered with a
Python `set`, whose iteration order is unspecified — we use
first-occurrence order, and no claim checked here depends on the column
order); any other list is kept as-is; scalars become one-element lists. -/

/-- `new_key = f"{prefix}{separator}{key}" if prefix else key`. -/
def joinKey (sep pre k : String) : String :=
  if pre = "" then k else pre ++ sep ++ k

/-- `dict.update`: fold every binding of `new` into `acc`. -/
def updateAssoc (acc new : List (String × List J)) : List (String × List J) :=
  new.foldl (fun a kv => setCol a kv.1 kv.2) acc
where
  /-- `d[key] = value` over column dicts. -/
  setCol (fields : List (String × List J)) (key : String) (v : List J) :
      List (String × List J) :=
    match fields with
    | [] => [(key, v)]
    | (k, w) :: rest => if k = key then (k, v) :: rest else (k, w) :: setCol rest key v

/-- `isinstance(item, dict)`. -/
def isObj : J → Bool
  | .obj _ => true
  | _ => false

/-- Union of keys over a list of dicts (`set().update(item.keys())`),
in first-occurrence order. -/
def allKeysOf (xs : List J) : List String :=
  xs.foldl
    (fun ks item =>
      match item with
      | .obj fields => ks ++ ((keysOf fields).filter (fun k => !(ks.contains k))).dedup
      | _ => ks)
    []

/-- `item.get(key)` with Python's `None` default. -/
def getOrNull (item : J) (key : String) : J :=
  match item with
  | .obj fields => (lookupJ fields key).getD J.null
  | _ => J.null

mutual

/-- Size of a `J` value; used as a recursion-depth bound (fuel) by the
recursive translations below.  The bound strictly exceeds the nesting
depth of the value, so the fuel-exhaustion branches are unreachable. -/
def sizeJ : J → Nat
  | .null => 1
  | .b _ => 1
  | .i _ => 1
  | .s _ => 1
  | .arr xs => sizeJL xs + 1
  | .obj fs => sizeJF fs + 1

/-- Size of a list of `J` values. -/
def sizeJL : List J → Nat
  | [] => 1
  | x :: xs => sizeJ x + sizeJL xs + 1

/-- Size of a dict's binding list. -/
def sizeJF : List (String × J) → Nat
  | [] => 1
  | (_, v) :: xs => sizeJ v + sizeJF xs + 1

end

/-- The dict branch of `_flatten_recursive` (utils.py lines 72-75):
successive `flattened.update(_flatten_recursive(value, new_key))`, with the
recursive flattening supplied as `step`. -/
def flatFieldsGo (step : String → J → List (String × List J)) (sep pre : String)
    (acc : List (String × List J)) : List (String × J) → List (String × List J)
  | [] => acc
  | (k, v) :: rest =>
      flatFieldsGo step sep pre (updateAssoc acc (step (joinKey sep pre k) v)) rest

/-- `_flatten_recursive(obj, prefix)` (utils.py lines 68-99), written with an
explicit recursion-depth fuel so the definition is structural and computes;
callers pass `sizeJ`, which exceeds the real depth, so the fuel never runs
out. -/
def flatValF : Nat → String → String → J → List (String × List J)
  | 0, _, pre, _ => [(pre, [])]
  | fuel + 1, sep, pre, j =>
    match j with
    | .obj fields => flatFieldsGo (flatValF fuel sep) sep pre [] fields
    | .arr [] => [(pre, [])]
    | .arr (x :: xs) =>
        if (x :: xs).all isObj then
          (allKeysOf (x :: xs)).map
            (fun key => (joinKey sep pre key, (x :: xs).map (fun item => getOrNull item key)))
        else
          [(pre, x :: xs)]
    | x => [(pre, [x])]

/-- Python `values * n` for lists. -/
def pyListMul (vs : List J) (n : Nat) : List J :=
  (List.replicate n vs).flatten

/-- The flattened columns before the fill step (`flattened_data` at
utils.py line 102, after the optional `pid` injection at lines 62-63). -/
def rawColumns (json_data : List (String × J)) (sep : String) (pid : Option String) :
    List (String × List J) :=
  let jd := match pid with
    | some p => setKey json_data "pid" (J.s p)
    | none => json_data
  flatValF (sizeJF jd + 1) sep "" (J.obj jd)

/-- `max_length` (utils.py lines 104-108): the longest column, at least 1. -/
def maxColLen (cols : List (String × List J)) : Nat :=
  cols.foldl (fun m kv => max m kv.2.length) 1

/-- `flatten_json_to_columns(json_data, fill, separator, participant_id)`
(utils.py lines 22-118).  The optional participant id is written into the
input dict as key `pid` before flattening; with `fill`, columns of length
exactly 1 are replicated up to `max_length` (lines 110-116). -/
def flatten_json_to_columns (json_data : List (String × J)) (fill : Bool)
    (sep : String) (pid : Option String) : List (String × List J) :=
  let flattened := rawColumns json_data sep pid
  flattened.map (fun kv =>
    if fill && kv.2.length == 1 && 1 < maxColLen flattened then
      (kv.1, pyListMul kv.2 (maxColLen flattened))
    else
      (kv.1, kv.2))

/-! ## `convert_dict_timestamps` (src/ultrahuman/utils.py lines 121-249)

`datetime.fromtimestamp` is rendered for a UTC system clock, which is what
the docstring examples of the source assume and what the Lambda runtime
provides.  The convertible range is the `datetime` year range 1..9999
(seconds `-62135596800 .. 253402300799`); outside it the source's
`except` branch returns `str(unix_timestamp)`.  `pytz` timezones are
modelled as fixed offsets for the zones exercised here (`America/Phoenix`
has no DST, so its offset is exact); a zone missing from the table is
rendered with offset 0 (the source would raise on an unknown zone, a path
not exercised by any claim). -/

/-- `_is_timestamp_key` (utils.py lines 166-169). -/
def isTimestampKey (k : String) : Bool :=
  strHas (lowerStr k) "timestamp" || strHas (lowerStr k) "_start" || strHas (lowerStr k) "_end"

/-- Civil date from days since 1970-01-01 (proleptic Gregorian), the
arithmetic behind `datetime.fromtimestamp` for a UTC clock. -/
def civilFromDays (z0 : Int) : Int × Int × Int :=
  let z := z0 + 719468
  let era := Int.fdiv z 146097
  let doe := z - 146097 * era
  let yoe := Int.fdiv (doe - Int.fdiv doe 1460 + Int.fdiv doe 36524 - Int.fdiv doe 146096) 365
  let y := yoe + era * 400
  let doy := doe - (365 * yoe + Int.fdiv yoe 4 - Int.fdiv yoe 100)
  let mp := Int.fdiv (5 * doy + 2) 153
  let d := doy - Int.fdiv (153 * mp + 2) 5 + 1
  let m := mp + (if mp < 10 then 3 else -9)
  (y + (if m ≤ 2 then 1 else 0), m, d)

/-- Two-digit zero padding. -/
def pad2 (n : Int) : String :=
  if n < 10 then "0" ++ toString n else toString n

/-- Four-digit zero padding (`strftime` year field). -/
def pad4 (n : Int) : String :=
  if n < 10 then "000" ++ toString n
  else if n < 100 then "00" ++ toString n
  else if n < 1000 then "0" ++ toString n
  else toString n

/-- `YYYY-MM-DDTHH:MM:SS` for an epoch second. -/
def isoCore (t : Int) : String :=
  let days := Int.fdiv t 86400
  let secs := t - 86400 * days
  let ymd := civilFromDays days
  pad4 ymd.1 ++ "-" ++ pad2 ymd.2.1 ++ "-" ++ pad2 ymd.2.2 ++ "T" ++
    pad2 (Int.fdiv secs 3600) ++ ":" ++ pad2 (Int.fdiv (t - 3600 * Int.fdiv t 3600) 60) ++ ":" ++
    pad2 (t - 60 * Int.fdiv t 60)

/-- `dt_utc.strftime('%Y-%m-%dT%H:%M:%SZ')`. -/
def isoUtcZ (t : Int) : String := isoCore t ++ "Z"

/-- Offset suffix of `datetime.isoformat()` for a fixed offset in seconds. -/
def offsetSuffix (off : Int) : String :=
  let sign := if off < 0 then "-" else "+"
  let a := if off < 0 then -off else off
  sign ++ pad2 (Int.fdiv a 3600) ++ ":" ++ pad2 (Int.fdiv (a - 3600 * Int.fdiv a 3600) 60)

/-- `dt_utc.astimezone(target_tz).isoformat()` for a fixed-offset zone. -/
def isoWithOffset (t off : Int) : String := isoCore (t + off) ++ offsetSuffix off

/-- Fixed-offset table standing in for `pytz.timezone` (see the section
comment). -/
def tzOffsetOf (name : String) : Int :=
  if name = "America/Phoenix" then -25200 else 0

/-- Smallest `datetime`-convertible epoch second (year 1). -/
def tsMin : Int := -62135596800

/-- Largest `datetime`-convertible epoch second (year 9999). -/
def tsMax : Int := 253402300799

/-- `_convert_unix_to_iso8601` (utils.py lines 171-187): render in UTC
(`Z` form) or, when a truthy timezone string is given, in that zone's
local offset form; out-of-range values take the `except` branch and come
back as `str(unix_timestamp)`. -/
def convertUnixToIso8601 (t : Int) (target : Option String) : String :=
  if t < tsMin || tsMax < t then toString t
  else
    match target with
    | none => isoUtcZ t
    | some name => if name = "" then isoUtcZ t else isoWithOffset t (tzOffsetOf name)

/-- Truthiness of the `timezone` argument (`if timezone:`): `None` and the
empty string are falsy. -/
def tzTruthy : Option String → Bool
  | none => false
  | some z => !(z == "")

/-- `_process_timestamp_value` (utils.py lines 189-196): a single number is
converted, a list is converted elementwise with non-numeric elements passed
through, anything else is returned unchanged.  Python `bool` is a numeric
type, so booleans convert as 0/1. -/
def processTsValue (v : J) (target : Option String) : J :=
  match v with
  | .i n => .s (convertUnixToIso8601 n target)
  | .b x => .s (convertUnixToIso8601 (if x then 1 else 0) target)
  | .arr xs =>
      .arr (xs.map (fun el =>
        match el with
        | .i n => J.s (convertUnixToIso8601 n target)
        | .b x => J.s (convertUnixToIso8601 (if x then 1 else 0) target)
        | other => other))
  | other => other

/-- Timestamp-like keys collected during the first pass over `d.items()`
(utils.py lines 203-214), in iteration order. -/
def tsKeys (fields : List (String × J)) : List String :=
  fields.filterMap (fun kv => if isTimestampKey kv.1 then some kv.1 else none)

/-- Second pass of `_process_dict` (utils.py lines 216-227): for every
recorded timestamp key, append the `_iso8601` sibling and, when the
timezone is truthy, the `_iso8601_tz` sibling. -/
def addTsKeys (tz : Option String) (result0 : List (String × J)) (keys : List String) :
    List (String × J) :=
  keys.foldl
    (fun res k =>
      let value := (lookupJ res k).getD J.null
      let res := setKey res (k ++ "_iso8601") (processTsValue value none)
      if tzTruthy tz then setKey res (k ++ "_iso8601_tz") (processTsValue value tz) else res)
    result0

/-- One second-pass step (for one recorded timestamp key). -/
def addTsStep (tz : Option String) (res : List (String × J)) (k : String) :
    List (String × J) :=
  let value := (lookupJ res k).getD J.null
  let res2 := setKey res (k ++ "_iso8601") (processTsValue value none)
  if tzTruthy tz then setKey res2 (k ++ "_iso8601_tz") (processTsValue value tz) else res2

/-- First pass of `_process_dict`: dict values are processed recursively,
list values go through `_process_list`, everything else is copied; the
recursive processing is supplied as `step`. -/
def convEntriesGo (step : J → J) : List (String × J) → List (String × J)
  | [] => []
  | (k, v) :: rest => (k, step v) :: convEntriesGo step rest

/-- `_process_list` (utils.py lines 231-241) with the recursive processing
supplied as `step`. -/
def convItemsGo (step : J → J) : List J → List J
  | [] => []
  | x :: rest => step x :: convItemsGo step rest

/-- `_process_dict` / `_process_list` dispatch (utils.py lines 198-249),
fuel-structural; callers pass `sizeJ`, which exceeds the real depth. -/
def convValF : Nat → Option String → J → J
  | 0, _, j => j
  | fuel + 1, tz, j =>
    match j with
    | .obj fields => .obj (addTsKeys tz (convEntriesGo (convValF fuel tz) fields) (tsKeys fields))
    | .arr xs => .arr (convItemsGo (convValF fuel tz) xs)
    | other => other

/-- `convert_dict_timestamps(data, timezone)` (utils.py lines 121-249).
The fuel `sizeJ data + 1` exceeds the nesting depth, so the recursion is
never cut short. -/
def convert_dict_timestamps (data : J) (tz : Option String) : J :=
  convValF (sizeJ data + 1) tz data

/-! ## Error classification (src/ultrahuman/error_handling.py)

A raised Python exception is embedded as a `PyError`: its class (only the
distinctions the classifier inspects), its `str()` message, the
`status_code` of an attached HTTP response when the error carries one
(`hasattr(error, 'response') and hasattr(error.response, 'status_code')`),
and the AWS error code for `botocore` `ClientError`s. -/

/-- Exception classes distinguished by `is_retryable_error`. -/
inductive ExcClass where
  | requestsConnectionError
  | requestsConnectTimeout
  | requestsReadTimeout
  | requestsTimeout
  | requestsHTTPError
  | requestsRequestException
  | botoClientError
  | jsonDecodeError
  | valueError
  | otherExc (typeName : String)
  deriving DecidableEq

/-- A raised exception as seen by the error-handling module. -/
structure PyError where
  cls : ExcClass
  message : String
  responseStatus : Option Int
  awsErrorCode : Option String

/-- `isinstance(error, requests.exceptions.RequestException)`: every
requests exception class inherits from `RequestException`. -/
def isRequestExceptionCls : ExcClass → Bool
  | .requestsConnectionError => true
  | .requestsConnectTimeout => true
  | .requestsReadTimeout => true
  | .requestsTimeout => true
  | .requestsHTTPError => true
  | .requestsRequestException => true
  | _ => false

/-- `isinstance(error, (ConnectionError, Timeout, ConnectTimeout,
ReadTimeout))`: `ConnectTimeout` inherits from both `ConnectionError` and
`Timeout`, `ReadTimeout` from `Timeout`. -/
def isConnTimeoutCls : ExcClass → Bool
  | .requestsConnectionError => true
  | .requestsConnectTimeout => true
  | .requestsReadTimeout => true
  | .requestsTimeout => true
  | _ => false

/-- The status-code rule of the decision table (error_handling.py lines
44-52): decided `some r` when the error carries a response status matching
a branch, `none` when the rule falls through (no response, or a status
outside 400..599 and not 429). -/
def statusRule (e : PyError) : Option Bool :=
  match e.responseStatus with
  | none => none
  | some sc =>
      if sc ≥ 500 || sc == 429 then some true
      else if 400 ≤ sc && sc < 500 then some false
      else none

/-- The message-keyword rules and the default (error_handling.py lines
75-88): connectivity keywords retry, validation/parsing keywords do not,
anything else defaults to non-retryable (with a logged warning). -/
def messageRule (msg : String) : Bool :=
  let m := lowerStr msg
  if strHas m "connection" || strHas m "timeout" || strHas m "network" || strHas m "dns" then
    true
  else if strHas m "validation" || strHas m "parse" || strHas m "json" || strHas m "schema" ||
      strHas m "format" then
    false
  else
    false

/-- `is_retryable_error(error)` (error_handling.py lines 23-88). -/
def is_retryable_error (e : PyError) : Bool :=
  match statusRule e with
  | some r => r
  | none =>
      if isRequestExceptionCls e.cls then
        isConnTimeoutCls e.cls
      else if e.cls == .botoClientError then
        let code := e.awsErrorCode.getD ""
        if code == "Throttling" || code == "ThrottledException" || code == "ServiceUnavailable" ||
            code == "InternalServerError" then
          true
        else if code == "ValidationException" || code == "InvalidParameterException" ||
            code == "AccessDenied" then
          false
        else
          messageRule e.message
      else
        messageRule e.message

/-- `str()` of a scalar `J` value, used for the `participant_id` message
attribute (participant ids are strings in practice; the rendering of
compound values is never needed). -/
def pyStr : J → String
  | .null => "None"
  | .b true => "True"
  | .b false => "False"
  | .i n => toString n
  | .s str => str
  | .arr _ => "<list>"
  | .obj _ => "<dict>"

/-- The dead-letter message body built by `send_to_dlq` (error_handling.py
lines 108-114). -/
structure DlqMessage where
  error_data : List (String × J)
  error_message : String
  operation : String
  timestamp : String
  function_name : String

/-- The message attributes attached to the dead-letter message
(error_handling.py lines 116-132). -/
structure DlqAttrs where
  operation : String
  error_type : String
  participant_id : Option String

/-- Observable outcome of `send_to_dlq`: the message constructed and handed
to SQS (none when no queue URL is configured), and whether the SQS send
succeeded.  The function itself never raises: a send failure is caught,
logged and swallowed (lines 142-143). -/
structure DlqOutcome where
  attempted : Option (DlqMessage × DlqAttrs)
  delivered : Bool

/-- `send_to_dlq(error_data, error_message, operation)` (error_handling.py
lines 91-143).  `dlqUrl` is the `UH_DLQ_URL` environment variable, `sendOk`
whether the SQS send would succeed, `now` and `fnName` the wall clock and
Lambda function name. -/
def send_to_dlq (dlqUrl : Option String) (sendOk : Bool) (now fnName : String)
    (error_data : List (String × J)) (error_message operation : String) : DlqOutcome :=
  match dlqUrl with
  | none => ⟨none, false⟩
  | some u =>
      if u = "" then ⟨none, false⟩
      else
        let msg : DlqMessage := ⟨error_data, error_message, operation, now, fnName⟩
        let attrs : DlqAttrs :=
          ⟨operation, "non_retryable_error",
            if hasKey error_data "participant_id" then
              some (pyStr (getJD error_data "participant_id" J.null))
            else none⟩
        ⟨some (msg, attrs), sendOk⟩

/-- Result of `handle_api_error`: either the `RetryableError` it raises, or
a normal return carrying the dead-letter outcome. -/
inductive HandleResult where
  | raised (msg : String)
  | returned (dlq : DlqOutcome)

/-- Whether a `HandleResult` is the raising outcome. -/
def HandleResult.isRaised : HandleResult → Bool
  | .raised _ => true
  | .returned _ => false

/-- `handle_api_error(error, error_data, operation)` (error_handling.py
lines 146-165). -/
def handle_api_error (e : PyError) (error_data : List (String × J)) (operation : String)
    (dlqUrl : Option String) (sendOk : Bool) (now fnName : String) : HandleResult :=
  if is_retryable_error e then
    .raised ("Retryable error in " ++ operation ++ ": " ++ e.message)
  else
    .returned (send_to_dlq dlqUrl sendOk now fnName error_data e.message operation)

/-! ## `UltrahumanAPI.get_metrics` error wrapping (src/ultrahuman/uh.py
lines 158-170)

Inside the `try`, `requests.get` / `raise_for_status` / `response.json()`
can fail in three ways; the `except` clauses re-raise a fresh generic
`requests.RequestException` (whose `response` attribute is `None`, so it
carries no status code) or a fresh `ValueError`. -/

/-- How the HTTP round trip inside `get_metrics` can end. -/
inductive FetchOutcome where
  | httpStatusError (status : Int) (msg : String)
  | netError (cls : ExcClass) (msg : String)
  | badJson (msg : String)
  | ok (body : J)

/-- The exception raised by `get_metrics` for each outcome (`none` on
success): every failure is re-wrapped into a fresh exception carrying only
a message (uh.py lines 167-170). -/
def get_metrics_raised : FetchOutcome → Option PyError
  | .httpStatusError _ msg =>
      some ⟨.requestsRequestException, "Failed to fetch metrics data: " ++ msg, none, none⟩
  | .netError _ msg =>
      some ⟨.requestsRequestException, "Failed to fetch metrics data: " ++ msg, none, none⟩
  | .badJson msg => some ⟨.valueError, "Invalid JSON response: " ++ msg, none, none⟩
  | .ok _ => none

/-! ## The sync loop (src/ultrahuman/uh_uploader.py lines 303-510)

Calendar days are numbered by consecutive naturals (`uh_sync_date +=
timedelta(days=1)` is `+ 1`).  The loop's environment supplies, per day,
the JSON object returned by `uh_api.get_metrics` (fetches are modelled as
succeeding: a fetch failure leaves the loop through `handle_api_error`
before any further effect of that day, and no claim settled against this
model concerns a failing fetch), and whether the parquet upload of a given
table would succeed on a given day.  The raw-JSON upload's success value is
only logged by the source (line 381-382), so it needs no oracle; the
attempt itself is recorded.  `_update_participant_sync_date` swallows MDH
failures (lines 505-510), so `persists` records the attempted watermark
writes. -/

/-- Generic dict lookup (first binding). -/
def lookupA {α : Type} (fields : List (String × α)) (key : String) : Option α :=
  match fields with
  | [] => none
  | (k, v) :: rest => if k = key then some v else lookupA rest key

/-- Generic Python `d[key] = value`. -/
def setKeyA {α : Type} (fields : List (String × α)) (key : String) (v : α) :
    List (String × α) :=
  match fields with
  | [] => [(key, v)]
  | (k, w) :: rest => if k = key then (k, v) :: rest else (k, w) :: setKeyA rest key v

/-- `WHITELISTED_TABLES` (uh_uploader.py lines 21-36). -/
def WHITELISTED_TABLES : List String :=
  ["avg_sleep_hrv", "hr", "hr_graph", "hrv", "movement_graph", "night_rhr",
   "quick_metrics", "quick_metrics_tiled", "sleep_graph", "sleep_stages", "steps", "temp"]

/-- Environment of one participant's sync: the vendor payload per day and
the parquet-upload success oracle per (table, day). -/
structure SyncEnv where
  payload : Nat → List (String × J)
  parquetOk : String → Nat → Bool

/-- One attempted `wr.s3.to_parquet` call (uh_uploader.py lines 193-213). -/
structure SinkCall where
  table : String
  pid : String
  rows : Nat
  ok : Bool
  deriving DecidableEq

/-- Return value of `_process_metric_data`. -/
structure ProcResult where
  record_count : Nat
  max_timestamp : Int
  deriving DecidableEq

/-- Python truthiness of a JSON value. -/
def pyFalsy : J → Bool
  | .null => true
  | .b false => true
  | .i 0 => true
  | .s "" => true
  | .arr [] => true
  | .obj [] => true
  | _ => false

/-- `metric.get('type') if isinstance(metric, dict) else None`, followed by
the `if not metric_type` falsiness check (uh_uploader.py line 148-149);
the type is a string in every real payload. -/
def metricTypeOf (metric : J) : Option String :=
  match metric with
  | .obj fields =>
      match lookupJ fields "type" with
      | some v => if pyFalsy v then none else
          match v with
          | .s t => some t
          | w => some (pyStr w)
      | none => none
  | _ => none

/-- `pd.DataFrame.from_dict(converted, orient="columns")` needs every
column to be a list (the pipeline only produces list columns). -/
def colsAsLists : List (String × J) → Option (List (String × List J))
  | [] => some []
  | (k, v) :: rest =>
      match v with
      | .arr vs => (colsAsLists rest).map (fun r => (k, vs) :: r)
      | _ => none

/-- The DataFrame built at uh_uploader.py lines 161-165: columns of unequal
length raise `ValueError` (caught, yielding `none`); otherwise the frame is
the columns plus its row count. -/
def dfFromColumns (cols : List (String × J)) : Option (List (String × List J) × Nat) :=
  match colsAsLists cols with
  | none => none
  | some lists =>
      match lists with
      | [] => some ([], 0)
      | (k, vs) :: rest =>
          if rest.all (fun kv => kv.2.length == vs.length) then
            some ((k, vs) :: rest, vs.length)
          else none

/-- `df['object_values_timestamp'].max()` over the integer timestamp
column produced by the vendor payloads (non-integers do not occur there). -/
def colMaxInt (xs : List J) : Int :=
  match xs.filterMap (fun v => match v with | .i n => some n | _ => none) with
  | [] => 0
  | y :: ys => ys.foldl max y

/-- Row count of `df[df['object_values_timestamp'] > uh_sync_timestamp]`. -/
def countRowsGt (xs : List J) (ts : Int) : Nat :=
  (xs.filter (fun v => match v with | .i n => decide (ts < n) | _ => false)).length

/-- `_process_metric_data` (uh_uploader.py lines 133-217): flatten, convert
timestamps, build the frame, record the anchor column's maximum, filter to
rows newer than the sync timestamp, then (outside dry run) attempt the
parquet upload — a failed upload is caught and reported as zero records
(lines 215-217). -/
def process_metric_data (env : SyncEnv) (dryRun : Bool) (day : Nat) (metric : J)
    (pid : String) (tzArg : Option String) (uhSyncTs : Option Int)
    (bedtimeStart bedtimeEnd : Option J) : ProcResult × List SinkCall :=
  match metricTypeOf metric with
  | none => (⟨0, 0⟩, [])
  | some metricType =>
      let fields := match metric with | .obj fs => fs | _ => []
      let fields := match bedtimeStart with | some v => setKey fields "bedtime_start" v | none => fields
      let fields := match bedtimeEnd with | some v => setKey fields "bedtime_end" v | none => fields
      let flattened := flatten_json_to_columns fields true "_" (some pid)
      let converted := convert_dict_timestamps (J.obj (flattened.map (fun kv => (kv.1, J.arr kv.2)))) tzArg
      let convFields := match converted with | .obj fs => fs | _ => []
      match dfFromColumns convFields with
      | none => (⟨0, 0⟩, [])
      | some (cols, n) =>
          if n = 0 then (⟨0, 0⟩, [])
          else
            let maxTs := match lookupA cols "object_values_timestamp" with
              | some col => colMaxInt col
              | none => 0
            let n2 := match uhSyncTs, lookupA cols "object_values_timestamp" with
              | some ts, some col => countRowsGt col ts
              | _, _ => n
            if n2 = 0 then (⟨0, maxTs⟩, [])
            else if dryRun then (⟨n2, maxTs⟩, [])
            else if env.parquetOk metricType day then (⟨n2, maxTs⟩, [⟨metricType, pid, n2, true⟩])
            else (⟨0, maxTs⟩, [⟨metricType, pid, n2, false⟩])

/-- The Sleep sub-metric iteration (uh_uploader.py lines 431-441): each
whitelisted key of the Sleep `object` becomes an independent metric (a deep
copy in the source, which is the identity here) carrying the parent's
bedtime bounds. -/
def processSleepItems (env : SyncEnv) (dryRun : Bool) (day : Nat) (pid : String)
    (tzArg : Option String) (lastTs : Int) (bs be : Option J) :
    List (String × J) → Nat × List SinkCall
  | [] => (0, [])
  | (k, v) :: rest =>
      if WHITELISTED_TABLES.contains k then
        let r := process_metric_data env dryRun day (J.obj [("type", J.s k), ("object", v)])
          pid tzArg (some lastTs) bs be
        let rr := processSleepItems env dryRun day pid tzArg lastTs bs be rest
        (r.1.record_count + rr.1, r.2 ++ rr.2)
      else
        processSleepItems env dryRun day pid tzArg lastTs bs be rest

/-- `sleep_obj.get('bedtime_start')` and the later `is not None` check: a
missing key and an explicit `null` both come back as `none`. -/
def optValOf (fields : List (String × J)) (key : String) : Option J :=
  match lookupJ fields key with
  | some .null => none
  | some v => some v
  | none => none

/-- The per-metric loop body (uh_uploader.py lines 425-451): falsy types
are skipped, `Sleep` fans out into its whitelisted sub-objects, other
whitelisted types are processed directly, anything else is skipped. -/
def processMetrics (env : SyncEnv) (dryRun : Bool) (day : Nat) (pid : String)
    (tzArg : Option String) (lastTs : Int) : List J → Nat × List SinkCall
  | [] => (0, [])
  | metric :: rest =>
      let here : Nat × List SinkCall :=
        match metricTypeOf metric with
        | none => (0, [])
        | some t =>
            if t = "Sleep" then
              let sleepFields := match metric with
                | .obj fs =>
                    match lookupJ fs "object" with
                    | some (.obj sf) => sf
                    | _ => []
                | _ => []
              processSleepItems env dryRun day pid tzArg lastTs
                (optValOf sleepFields "bedtime_start") (optValOf sleepFields "bedtime_end")
                sleepFields
            else if WHITELISTED_TABLES.contains t then
              let r := process_metric_data env dryRun day metric pid tzArg (some lastTs) none none
              (r.1.record_count, r.2)
            else (0, [])
      let rr := processMetrics env dryRun day pid tzArg lastTs rest
      (here.1 + rr.1, here.2 ++ rr.2)

/-- `json_obj.get('data', {})` as a binding list (a non-dict `data` would
crash the source's subsequent `.get` calls; not exercised). -/
def dataFieldsOf (env : SyncEnv) (day : Nat) : List (String × J) :=
  match getJD (env.payload day) "data" (J.obj []) with
  | .obj fs => fs
  | _ => []

/-- The per-metric summary map `mmap` (uh_uploader.py lines 391-399):
`{count of values, last value's timestamp}` keyed by metric type, later
entries overwriting earlier ones as in a dict. -/
def mmapOf (dataFields : List (String × J)) : List (String × (Nat × Int)) :=
  let md := match getJD dataFields "metric_data" (J.arr []) with | .arr xs => xs | _ => []
  md.foldl
    (fun acc metrics =>
      let values := match metrics with
        | .obj fs =>
            match getJD fs "object" (J.obj []) with
            | .obj os => (match getJD os "values" (J.arr []) with | .arr vs => vs | _ => [])
            | _ => []
        | _ => []
      let lastTs : Int := match values.getLast? with
        | some (.obj lf) => (match getJD lf "timestamp" (J.i 0) with | .i n => n | _ => 0)
        | _ => 0
      let ty := match metrics with
        | .obj fs => (match getJD fs "type" (J.s "unkown") with | .s t => t | _ => "unkown")
        | _ => "unkown"
      setKeyA acc ty (values.length, lastTs))
    []

/-- The day-skipping guard of the loop (uh_uploader.py lines 404-414): the
anchor metric `temp` is absent, has no values, or its last timestamp is
already covered by the current epoch. -/
def alreadyIngested (env : SyncEnv) (day : Nat) (epoch : Int) : Bool :=
  match lookupA (mmapOf (dataFieldsOf env day)) "temp" with
  | none => true
  | some (cnt, lastTs) => cnt == 0 || lastTs ≤ epoch

/-- `data.get('latest_time_zone', DEFAULT_TIMEZONE)` as the `timezone`
argument handed to `_process_metric_data` (a present non-string value is
passed through; only `null` — Python `None`, falsy — occurs in practice). -/
def latestTimeZoneOf (dataFields : List (String × J)) : Option String :=
  match lookupJ dataFields "latest_time_zone" with
  | some (.s z) => some z
  | some _ => none
  | none => some "UTC"

/-- Everything observable about one run of
`_collect_and_upload_participant_data`'s day loop. -/
structure RunResult where
  recordCount : Nat
  dryRunHit : Bool
  persists : List (Nat × Int)
  parquetCalls : List SinkCall
  jsonCalls : List Nat
  finalDate : Nat
  finalEpoch : Int

/-- The day loop (uh_uploader.py lines 357-473), fuel-structural on the
number of remaining days.  Per day: the raw JSON upload is attempted
(before any guard, skipped in dry run), the summary map is built, the
anchor guards may skip to the next day, otherwise every metric is
processed, the epoch advances to the anchor's last timestamp, a dry run
returns immediately with the counts so far, and a positive cumulative
record count persists `(day, epoch)` before moving on. -/
def syncDays (env : SyncEnv) (dryRun : Bool) (pid : String) :
    Nat → Nat → Int → Nat → RunResult
  | 0, d, e, rc => ⟨rc, false, [], [], [], d, e⟩
  | fuel + 1, d, e, rc =>
      let dataFields := dataFieldsOf env d
      let jsonCallsHere : List Nat := if dryRun then [] else [d]
      match lookupA (mmapOf dataFields) "temp" with
      | none =>
          let r := syncDays env dryRun pid fuel (d + 1) e rc
          { r with jsonCalls := jsonCallsHere ++ r.jsonCalls }
      | some (cnt, lastTs) =>
          if cnt = 0 then
            let r := syncDays env dryRun pid fuel (d + 1) e rc
            { r with jsonCalls := jsonCallsHere ++ r.jsonCalls }
          else if lastTs ≤ e then
            let r := syncDays env dryRun pid fuel (d + 1) e rc
            { r with jsonCalls := jsonCallsHere ++ r.jsonCalls }
          else
            let tzArg := latestTimeZoneOf dataFields
            let md := match getJD dataFields "metric_data" (J.arr []) with | .arr xs => xs | _ => []
            let pm := processMetrics env dryRun d pid tzArg e md
            let rc2 := rc + pm.1
            let e2 := lastTs
            if dryRun then
              ⟨rc2, true, [], pm.2, jsonCallsHere, d, e2⟩
            else
              let persistsHere : List (Nat × Int) := if rc2 > 0 then [(d, e2)] else []
              let r := syncDays env dryRun pid fuel (d + 1) e2 rc2
              ⟨r.recordCount, r.dryRunHit, persistsHere ++ r.persists, pm.2 ++ r.parquetCalls,
                jsonCallsHere ++ r.jsonCalls, r.finalDate, r.finalEpoch⟩

/-- The day loop of `_collect_and_upload_participant_data` run over the
window `[syncDate, targetDate]` (uh_uploader.py line 357: `while
uh_sync_date <= target_date`). -/
def collect_and_upload (env : SyncEnv) (dryRun : Bool) (pid : String)
    (syncDate : Nat) (epoch : Int) (targetDate : Nat) : RunResult :=
  syncDays env dryRun pid (targetDate + 1 - syncDate) syncDate epoch 0

/-- One scheduled invocation for the cross-run watermark story. -/
structure RunSpec where
  env : SyncEnv
  dry : Bool
  pid : String
  target : Nat

/-- Watermarks persisted across a sequence of runs, each run reading back
the last persisted watermark of its predecessors (the MDH custom fields;
the string round-trip through `isoformat`/`str` and
`date.fromisoformat`/`int` is the identity on the values written). -/
def runSeqPersists : Nat × Int → List RunSpec → List (Nat × Int)
  | _, [] => []
  | s, rs :: rest =>
      let r := collect_and_upload rs.env rs.dry rs.pid s.1 s.2 rs.target
      r.persists ++ runSeqPersists (r.persists.getLastD s) rest

/-- Chained watermark monotonicity: every element dominates its
predecessor in both the day and the epoch component. -/
def wmChain : Nat × Int → List (Nat × Int) → Prop
  | _, [] => True
  | p, q :: rest => (p.1 ≤ q.1 ∧ p.2 ≤ q.2) ∧ wmChain q rest

/-! ## Concrete fixtures used by the witnesses and counterexamples -/

/-- Binding list of a dict-shaped `J` (empty for non-dicts). -/
def objFieldsOf : J → List (String × J)
  | .obj fs => fs
  | _ => []

/-- Executable string-suffix test. -/
def strEndsWith (s1 suffixStr : String) : Bool :=
  suffixStr.toList.isSuffixOf s1.toList

/-- Whether a fetch outcome failed inside the `requests` machinery (HTTP
status or network layer), i.e. was re-raised as a generic
`requests.RequestException`. -/
def FetchOutcome.viaRequests : FetchOutcome → Bool
  | .httpStatusError _ _ => true
  | .netError _ _ => true
  | _ => false

/-- A vendor metric entry of the given type with one `(timestamp, value)`
sample. -/
def oneSampleMetric (ty : String) (ts : Int) (v : Int) : J :=
  J.obj [("type", J.s ty),
         ("object", J.obj [("values", J.arr [J.obj [("timestamp", J.i ts), ("value", J.i v)]])])]

/-- A day's `get_metrics` response holding the given metric entries. -/
def mkPayload (metrics : List J) : List (String × J) :=
  [("data", J.obj [("metric_data", J.arr metrics), ("latest_time_zone", J.s "UTC")])]

/-- Environment for the C1 counterexample: one day with fresh `temp` and
`hr` data; the `temp` parquet upload succeeds, the `hr` upload fails. -/
def cxEnvPartialFail : SyncEnv :=
  ⟨fun _ => mkPayload [oneSampleMetric "temp" 100 50, oneSampleMetric "hr" 100 80],
   fun tb _ => tb == "temp"⟩

/-- Environment where every parquet upload fails. -/
def cxEnvAllFail : SyncEnv :=
  ⟨fun _ => mkPayload [oneSampleMetric "temp" 100 50, oneSampleMetric "hr" 100 80],
   fun _ _ => false⟩

/-- Environment for the C2 counterexample and witness: a single day whose
anchor last timestamp (100) is already covered by the watermark epoch. -/
def cxEnvIngested : SyncEnv :=
  ⟨fun _ => mkPayload [oneSampleMetric "temp" 100 50], fun _ _ => true⟩

/-- Environment for the C9 counterexample: two consecutive days with fresh
anchor data (timestamps 100 and 101), all uploads succeeding. -/
def cxEnvTwoDays : SyncEnv :=
  ⟨fun d => mkPayload [oneSampleMetric "temp" (100 + Int.ofNat d) 50], fun _ _ => true⟩

/-- A simulated HTTP error carrying a response with the given status. -/
def httpErrorWithStatus (status : Int) (msg : String) : PyError :=
  ⟨.requestsHTTPError, msg, some status, none⟩

/-- A `requests.exceptions.ConnectTimeout` (its `response` is `None`). -/
def connectTimeoutError : PyError :=
  ⟨.requestsConnectTimeout,
   "HTTPSConnectionPool(host='partner.ultrahuman.com', port=443): Max retries exceeded",
   none, none⟩

/-- A `json.JSONDecodeError` with its standard message. -/
def jsonDecodeFixture : PyError :=
  ⟨.jsonDecodeError, "Expecting value: line 1 column 1 (char 0)", none, none⟩

/-- An unrecognized custom exception type. -/
def customErrorFixture : PyError :=
  ⟨.otherExc "CustomBusinessError", "Some business rule was violated", none, none⟩

/-- A non-retryable fixture with a participant id in its context. -/
def notFoundFixture : PyError :=
  ⟨.requestsHTTPError, "404 Client Error: Not Found for url", some 404, none⟩

end UH

/-! ## Concrete evaluations of the embedded transforms (sanity checks
mirroring the docstring examples of utils.py) -/

example : UH.flatten_json_to_columns
    [("device_name", UH.J.s "AppleWatch"), ("data_type", UH.J.s "hr"),
     ("values", UH.J.arr [UH.J.obj [("timestamp", UH.J.i 1000), ("value", UH.J.i 84)],
                       UH.J.obj [("timestamp", UH.J.i 1600), ("value", UH.J.i 85)]])]
    false "_" none
    = [("device_name", [UH.J.s "AppleWatch"]), ("data_type", [UH.J.s "hr"]),
       ("values_timestamp", [UH.J.i 1000, UH.J.i 1600]),
       ("values_value", [UH.J.i 84, UH.J.i 85])] := rfl

example : UH.flatten_json_to_columns
    [("device_name", UH.J.s "AppleWatch"),
     ("values", UH.J.arr [UH.J.obj [("timestamp", UH.J.i 1000)], UH.J.obj [("timestamp", UH.J.i 1600)]])]
    true "_" none
    = [("device_name", [UH.J.s "AppleWatch", UH.J.s "AppleWatch"]),
       ("values_timestamp", [UH.J.i 1000, UH.J.i 1600])] := rfl

example : UH.convertUnixToIso8601 1672531200 none = "2023-01-01T00:00:00Z" := rfl
example : UH.convertUnixToIso8601 1672531200 (some "America/Phoenix") = "2022-12-31T17:00:00-07:00" := rfl
example : UH.convertUnixToIso8601 253402300800 none = "253402300800" := rfl
example : UH.convert_dict_timestamps
    (UH.J.obj [("timestamp", UH.J.arr [UH.J.i 1672531200, UH.J.i 1672531201]),
            ("nested", UH.J.obj [("inner_timestamp", UH.J.i 1672531200)])])
    (some "America/Phoenix")
    = UH.J.obj [("timestamp", UH.J.arr [UH.J.i 1672531200, UH.J.i 1672531201]),
             ("nested", UH.J.obj [("inner_timestamp", UH.J.i 1672531200),
                ("inner_timestamp_iso8601", UH.J.s "2023-01-01T00:00:00Z"),
                ("inner_timestamp_iso8601_tz", UH.J.s "2022-12-31T17:00:00-07:00")]),
             ("timestamp_iso8601", UH.J.arr [UH.J.s "2023-01-01T00:00:00Z", UH.J.s "2023-01-01T00:00:01Z"]),
             ("timestamp_iso8601_tz", UH.J.arr [UH.J.s "2022-12-31T17:00:00-07:00", UH.J.s "2022-12-31T17:00:01-07:00"])] := rfl

namespace UH

/-! ## Claim C6 -/

/-- C6: the error classifier, on the concrete shapes of the spec's decision
table: HTTP 503 is retryable, HTTP 404 is not, HTTP 429 is, a connect
timeout is, a JSON-decode error is not, and an unrecognized custom
exception type is not. -/
theorem C6_classifier_cases :
    is_retryable_error (httpErrorWithStatus 503 "503 Server Error: Service Unavailable") = true ∧
    is_retryable_error (httpErrorWithStatus 404 "404 Client Error: Not Found") = false ∧
    is_retryable_error (httpErrorWithStatus 429 "429 Client Error: Too Many Requests") = true ∧
    is_retryable_error connectTimeoutError = true ∧
    is_retryable_error jsonDecodeFixture = false ∧
    is_retryable_error customErrorFixture = false :=
  ⟨rfl, rfl, rfl, rfl, rfl, rfl⟩

/-! ## Claim C10 -/

/-- C10: every error raised by `get_metrics` is a fresh generic exception
whose `response` carries no status code, so the classifier's status-code
rule falls through on it; in particular an HTTP-status failure of the
fetch (any status, 5xx and 429 included) classifies as non-retryable. -/
theorem C10_fetch_error_rewrap (o : FetchOutcome) (e : PyError)
    (h : get_metrics_raised o = some e) :
    e.responseStatus = none ∧ statusRule e = none ∧
      (o.viaRequests = true → is_retryable_error e = false) := by
  cases o with
  | httpStatusError st msg =>
      cases h
      exact ⟨rfl, rfl, fun _ => rfl⟩
  | netError cls msg =>
      cases h
      exact ⟨rfl, rfl, fun _ => rfl⟩
  | badJson msg =>
      cases h
      exact ⟨rfl, rfl, fun hv => nomatch hv⟩
  | ok body => cases h

/-- Witness for C10 at a simulated 503 fetch failure. -/
theorem C10_fetch_error_rewrap_witness :
    let e : PyError := ⟨.requestsRequestException,
      "Failed to fetch metrics data: 503 Server Error", none, none⟩
    e.responseStatus = none ∧ statusRule e = none ∧
      ((FetchOutcome.httpStatusError 503 "503 Server Error").viaRequests = true →
        is_retryable_error e = false) :=
  C10_fetch_error_rewrap (.httpStatusError 503 "503 Server Error") _ rfl

/-! ## Claim C7 -/

/-- C7: `handle_api_error` raises exactly when the classifier judges the
error retryable; otherwise it returns normally, handing the dead-letter
sink (when a queue URL is configured) the structured record built from the
operation name, the error message, the diagnostic context with its
participant id attribute when present, and the timestamp — and it still
returns normally when that send fails (`sendOk = false` is swallowed). -/
theorem C7_handle_api_error (e : PyError) (data : List (String × J)) (op : String)
    (dlqUrl : Option String) (sendOk : Bool) (now fnName : String) (u : String) :
    (handle_api_error e data op dlqUrl sendOk now fnName).isRaised = is_retryable_error e ∧
    (is_retryable_error e = false → dlqUrl = some u → u ≠ "" →
      handle_api_error e data op dlqUrl sendOk now fnName =
        .returned ⟨some (⟨data, e.message, op, now, fnName⟩,
          ⟨op, "non_retryable_error",
            if hasKey data "participant_id" then
              some (pyStr (getJD data "participant_id" J.null))
            else none⟩), sendOk⟩) ∧
    (is_retryable_error e = true →
      handle_api_error e data op dlqUrl sendOk now fnName =
        .raised ("Retryable error in " ++ op ++ ": " ++ e.message)) := by
  refine ⟨?_, ?_, ?_⟩
  · unfold handle_api_error
    by_cases hr : is_retryable_error e
    · simp [hr, HandleResult.isRaised]
    · simp [hr, HandleResult.isRaised]
  · intro hnr hurl hne
    subst hurl
    unfold handle_api_error send_to_dlq
    simp [hnr, hne]
  · intro hr
    unfold handle_api_error
    simp [hr]

/-- Witness for C7 at a 404 error with a configured queue and a failing
send. -/
theorem C7_handle_api_error_witness :
    (handle_api_error notFoundFixture [("participant_id", J.s "BB-1")] "uh_api_get_metrics"
        (some "https://sqs/q") false "2025-09-03T00:00:00+00:00" "uh_sns_uploader").isRaised
      = is_retryable_error notFoundFixture ∧
    (is_retryable_error notFoundFixture = false →
      some "https://sqs/q" = some "https://sqs/q" → "https://sqs/q" ≠ "" →
      handle_api_error notFoundFixture [("participant_id", J.s "BB-1")] "uh_api_get_metrics"
          (some "https://sqs/q") false "2025-09-03T00:00:00+00:00" "uh_sns_uploader" =
        .returned ⟨some (⟨[("participant_id", J.s "BB-1")], notFoundFixture.message,
            "uh_api_get_metrics", "2025-09-03T00:00:00+00:00", "uh_sns_uploader"⟩,
          ⟨"uh_api_get_metrics", "non_retryable_error",
            if hasKey [("participant_id", J.s "BB-1")] "participant_id" then
              some (pyStr (getJD [("participant_id", J.s "BB-1")] "participant_id" J.null))
            else none⟩), false⟩) ∧
    (is_retryable_error notFoundFixture = true →
      handle_api_error notFoundFixture [("participant_id", J.s "BB-1")] "uh_api_get_metrics"
          (some "https://sqs/q") false "2025-09-03T00:00:00+00:00" "uh_sns_uploader" =
        .raised ("Retryable error in " ++ "uh_api_get_metrics" ++ ": " ++
          notFoundFixture.message)) :=
  C7_handle_api_error notFoundFixture [("participant_id", J.s "BB-1")] "uh_api_get_metrics"
    (some "https://sqs/q") false "2025-09-03T00:00:00+00:00" "uh_sns_uploader" "https://sqs/q"

end UH

namespace UH

/-! ## Lemmas about `_process_metric_data` and the metric fan-out -/

/-- In dry-run mode `_process_metric_data` never reaches the parquet
upload. -/
theorem pmd_dry_no_calls (env : SyncEnv) (day : Nat) (metric : J) (pid : String)
    (tzArg : Option String) (ts : Option Int) (bs be : Option J) :
    (process_metric_data env true day metric pid tzArg ts bs be).2 = [] := by
  unfold process_metric_data
  dsimp only
  (repeat' split) <;> first | rfl | simp_all

/-- When every parquet upload fails, `_process_metric_data` reports zero
records (the caught upload exception at uh_uploader.py lines 215-217). -/
theorem pmd_all_fail_count (env : SyncEnv)
    (hfail : ∀ tb dy, env.parquetOk tb dy = false) (day : Nat) (metric : J) (pid : String)
    (tzArg : Option String) (ts : Option Int) (bs be : Option J) :
    (process_metric_data env false day metric pid tzArg ts bs be).1.record_count = 0 := by
  unfold process_metric_data
  dsimp only
  (repeat' split) <;> first | rfl | simp_all [hfail]

/-- Dry-run Sleep fan-out attempts no uploads. -/
theorem psl_dry_no_calls (env : SyncEnv) (day : Nat) (pid : String)
    (tzArg : Option String) (lastTs : Int) (bs be : Option J)
    (l : List (String × J)) :
    (processSleepItems env true day pid tzArg lastTs bs be l).2 = [] := by
  induction l with
  | nil => rfl
  | cons kv rest ih =>
      obtain ⟨k, v⟩ := kv
      simp only [processSleepItems]
      split
      · simp [pmd_dry_no_calls, ih]
      · exact ih

/-- All-uploads-fail Sleep fan-out reports zero records. -/
theorem psl_all_fail_count (env : SyncEnv)
    (hfail : ∀ tb dy, env.parquetOk tb dy = false) (day : Nat) (pid : String)
    (tzArg : Option String) (lastTs : Int) (bs be : Option J)
    (l : List (String × J)) :
    (processSleepItems env false day pid tzArg lastTs bs be l).1 = 0 := by
  induction l with
  | nil => rfl
  | cons kv rest ih =>
      obtain ⟨k, v⟩ := kv
      simp only [processSleepItems]
      split
      · simp [pmd_all_fail_count env hfail, ih]
      · exact ih

/-- Dry-run metric processing attempts no uploads. -/
theorem pms_dry_no_calls (env : SyncEnv) (day : Nat) (pid : String)
    (tzArg : Option String) (lastTs : Int) (md : List J) :
    (processMetrics env true day pid tzArg lastTs md).2 = [] := by
  induction md with
  | nil => rfl
  | cons metric rest ih =>
      simp only [processMetrics]
      split
      · simpa using ih
      · split
        · simp [psl_dry_no_calls, ih]
        · split
          · simp [pmd_dry_no_calls, ih]
          · simpa using ih

/-- All-uploads-fail metric processing reports zero records. -/
theorem pms_all_fail_count (env : SyncEnv)
    (hfail : ∀ tb dy, env.parquetOk tb dy = false) (day : Nat) (pid : String)
    (tzArg : Option String) (lastTs : Int) (md : List J) :
    (processMetrics env false day pid tzArg lastTs md).1 = 0 := by
  induction md with
  | nil => rfl
  | cons metric rest ih =>
      simp only [processMetrics]
      split
      · simpa using ih
      · split
        · simp [psl_all_fail_count env hfail, ih]
        · split
          · simp [pmd_all_fail_count env hfail, ih]
          · simpa using ih

end UH

namespace UH

/-! ## Lemmas about the day loop -/

/-- A dry run of the day loop makes no parquet calls, no raw-JSON calls and
persists nothing, whatever the window and state. -/
theorem syncDays_dry_effects (env : SyncEnv) (pid : String) :
    ∀ fuel d e rc,
      (syncDays env true pid fuel d e rc).parquetCalls = [] ∧
      (syncDays env true pid fuel d e rc).jsonCalls = [] ∧
      (syncDays env true pid fuel d e rc).persists = [] := by
  intro fuel
  induction fuel with
  | zero => exact fun d e rc => ⟨rfl, rfl, rfl⟩
  | succ n ih =>
      intro d e rc
      simp only [syncDays]
      split
      · simpa using ih (d + 1) e rc
      · split
        · simpa using ih (d + 1) e rc
        · split
          · simpa using ih (d + 1) e rc
          · simp [pms_dry_no_calls]

/-- When every parquet upload fails, a (non-dry) run that has uploaded
nothing yet persists no watermark. -/
theorem syncDays_all_fail_persists (env : SyncEnv)
    (hfail : ∀ tb dy, env.parquetOk tb dy = false) (pid : String) :
    ∀ fuel d e, (syncDays env false pid fuel d e 0).persists = [] := by
  intro fuel
  induction fuel with
  | zero => exact fun d e => rfl
  | succ n ih =>
      intro d e
      simp only [syncDays]
      split
      · simpa using ih (d + 1) e
      · split
        · simpa using ih (d + 1) e
        · split
          · simpa using ih (d + 1) e
          · simp [pms_all_fail_count env hfail, ih]

/-- A window in which every day is already ingested (per the anchor
guards) is walked without parquet calls, without persisting, without
records, and without moving the epoch. -/
theorem syncDays_skip_window (env : SyncEnv) (pid : String) :
    ∀ fuel d (e : Int) rc,
      (∀ dd, d ≤ dd → dd < d + fuel → alreadyIngested env dd e = true) →
      (syncDays env false pid fuel d e rc).parquetCalls = [] ∧
      (syncDays env false pid fuel d e rc).persists = [] ∧
      (syncDays env false pid fuel d e rc).recordCount = rc ∧
      (syncDays env false pid fuel d e rc).finalEpoch = e := by
  intro fuel
  induction fuel with
  | zero => exact fun d e rc _ => ⟨rfl, rfl, rfl, rfl⟩
  | succ n ih =>
      intro d e rc h
      have hd : alreadyIngested env d e = true := h d le_rfl (by omega)
      have ih2 := ih (d + 1) e rc (fun dd h1 h2 => h dd (by omega) (by omega))
      unfold alreadyIngested at hd
      simp only [syncDays]
      split
      · simpa using ih2
      · rename_i cnt lastTs heq
        rw [heq] at hd
        have hd2 : cnt = 0 ∨ lastTs ≤ e := by simpa using hd
        by_cases hc : cnt = 0
        · rw [if_pos hc]
          simpa using ih2
        · rw [if_neg hc, if_pos (hd2.resolve_left hc)]
          simpa using ih2

/-- Weakening the head of a watermark chain. -/
theorem wmChain_weaken : ∀ (L : List (Nat × Int)) (p q : Nat × Int),
    p.1 ≤ q.1 → p.2 ≤ q.2 → wmChain q L → wmChain p L := by
  intro L
  induction L with
  | nil => exact fun _ _ _ _ _ => trivial
  | cons r rest _ =>
      intro p q h1 h2 hc
      exact ⟨⟨le_trans h1 hc.1.1, le_trans h2 hc.1.2⟩, hc.2⟩

/-- Chains concatenate when the second starts at the last element of the
first. -/
theorem wmChain_append : ∀ (L : List (Nat × Int)) (p : Nat × Int) (M : List (Nat × Int)),
    wmChain p L → wmChain (L.getLastD p) M → wmChain p (L ++ M) := by
  intro L
  induction L with
  | nil => exact fun p M _ h2 => h2
  | cons q rest ih =>
      intro p M h1 h2
      rw [List.getLastD_cons] at h2
      exact ⟨h1.1, ih q M h1.2 h2⟩

/-- Every watermark the day loop persists dominates the starting state,
and the persisted sequence is chained (dates never regress, epochs never
decrease). -/
theorem syncDays_chain (env : SyncEnv) (dry : Bool) (pid : String) :
    ∀ fuel d e rc, wmChain (d, e) (syncDays env dry pid fuel d e rc).persists := by
  intro fuel
  induction fuel with
  | zero => exact fun d e rc => trivial
  | succ n ih =>
      intro d e rc
      simp only [syncDays]
      split
      · exact wmChain_weaken _ (d, e) (d + 1, e) (by omega) le_rfl (ih (d + 1) e rc)
      · rename_i cnt lastTs heq
        split
        · exact wmChain_weaken _ (d, e) (d + 1, e) (by omega) le_rfl (ih (d + 1) e rc)
        · split
          · exact wmChain_weaken _ (d, e) (d + 1, e) (by omega) le_rfl (ih (d + 1) e rc)
          · rename_i hfresh
            have hlt : e < lastTs := lt_of_not_le hfresh
            split
            · trivial
            · split <;> split
              all_goals first
                | exact ⟨⟨le_rfl, le_of_lt hlt⟩,
                    wmChain_weaken _ (d, lastTs) (d + 1, lastTs) (by omega) le_rfl
                      (ih (d + 1) lastTs _)⟩
                | exact wmChain_weaken _ (d, e) (d + 1, lastTs) (by omega) (le_of_lt hlt)
                    (ih (d + 1) lastTs _)

end UH

namespace UH

/-! ## Claim C1 -/

/-- C1 counterexample: on a day whose `hr` parquet upload fails while the
`temp` upload succeeds, the loop still persists the watermark `(day,
anchor timestamp)` — the claim asserts the watermark is not advanced for a
day with a failed upload. -/
theorem C1_counterexample :
    (collect_and_upload cxEnvPartialFail false "P1" 0 0 0).parquetCalls
      = [⟨"temp", "P1", 1, true⟩, ⟨"hr", "P1", 1, false⟩] ∧
    (collect_and_upload cxEnvPartialFail false "P1" 0 0 0).persists = [(0, 100)] :=
  ⟨rfl, rfl⟩

/-- C1 as amended: a failed upload is swallowed as zero records, so the
watermark stays unadvanced only when the run's cumulative record count
stays zero — in particular when every upload of the invocation fails;
when another metric's upload succeeds, the watermark advances anyway (see
the counterexample). -/
theorem C1_all_uploads_fail_keeps_watermark (env : SyncEnv) (pid : String)
    (d0 : Nat) (e0 : Int) (t : Nat)
    (hfail : ∀ tb dy, env.parquetOk tb dy = false) :
    (collect_and_upload env false pid d0 e0 t).persists = [] :=
  syncDays_all_fail_persists env hfail pid (t + 1 - d0) d0 e0

/-- Witness for the amended C1 on a concrete all-failing environment. -/
theorem C1_all_uploads_fail_keeps_watermark_witness :
    (collect_and_upload cxEnvAllFail false "P1" 0 0 0).persists = [] :=
  C1_all_uploads_fail_keeps_watermark cxEnvAllFail "P1" 0 0 0 (fun _ _ => rfl)

/-! ## Claim C2 -/

/-- C2 counterexample: re-running a one-day window whose anchor timestamp
is already covered (epoch 100 = anchor last timestamp) performs no parquet
upload and persists nothing, but it does upload the day's raw JSON to S3
(uh_uploader.py line 380 runs before the idempotence guard at line 411) —
the claim asserts the day is skipped "without uploading anything". -/
theorem C2_counterexample :
    (collect_and_upload cxEnvIngested false "P1" 0 100 0).jsonCalls = [0] ∧
    (collect_and_upload cxEnvIngested false "P1" 0 100 0).parquetCalls = [] ∧
    (collect_and_upload cxEnvIngested false "P1" 0 100 0).persists = [] :=
  ⟨rfl, rfl, rfl⟩

/-- C2 as amended: when every day of the window is already ingested (anchor
absent, empty, or its last timestamp at most the epoch), the run performs
zero parquet (sink) uploads, persists nothing, counts zero records and
leaves the epoch unchanged — though each day's raw JSON archive is still
re-uploaded. -/
theorem C2_already_ingested_window_idempotent (env : SyncEnv) (pid : String)
    (d0 : Nat) (e0 : Int) (t : Nat)
    (h : ∀ d, d0 ≤ d → d ≤ t → alreadyIngested env d e0 = true) :
    (collect_and_upload env false pid d0 e0 t).parquetCalls = [] ∧
    (collect_and_upload env false pid d0 e0 t).persists = [] ∧
    (collect_and_upload env false pid d0 e0 t).recordCount = 0 ∧
    (collect_and_upload env false pid d0 e0 t).finalEpoch = e0 :=
  syncDays_skip_window env pid (t + 1 - d0) d0 e0 0
    (fun dd h1 h2 => h dd h1 (by omega))

/-- Witness for the amended C2 on the concrete already-ingested window. -/
theorem C2_already_ingested_window_idempotent_witness :
    (collect_and_upload cxEnvIngested false "P1" 0 100 0).parquetCalls = [] ∧
    (collect_and_upload cxEnvIngested false "P1" 0 100 0).persists = [] ∧
    (collect_and_upload cxEnvIngested false "P1" 0 100 0).recordCount = 0 ∧
    (collect_and_upload cxEnvIngested false "P1" 0 100 0).finalEpoch = 100 :=
  C2_already_ingested_window_idempotent cxEnvIngested "P1" 0 100 0
    (fun d _ h2 => by
      have hz : d = 0 := Nat.le_zero.mp h2
      subst hz
      rfl)

/-! ## Claim C8 -/

/-- C8: across any sequence of runs, each reading back the watermark last
persisted before it, the persisted watermarks are monotone: `sync_date`
never regresses and `sync_epoch` never decreases, taking the initial
watermark as the base point. -/
theorem C8_watermark_monotone (s0 : Nat × Int) (runs : List RunSpec) :
    wmChain s0 (runSeqPersists s0 runs) := by
  induction runs generalizing s0 with
  | nil => trivial
  | cons rs rest ih =>
      simp only [runSeqPersists]
      exact wmChain_append _ s0 _
        (by simpa using syncDays_chain rs.env rs.dry rs.pid (rs.target + 1 - s0.1) s0.1 s0.2 0)
        (ih _)

/-! ## Claim C9 -/

/-- C9 counterexample: over a two-day window in which both days hold fresh
anchor data, the dry run returns after the first processed day with 1
intended row, while the full window's intended count (what a real run
uploads) is 2 — the claim asserts the dry run computes the intended row
counts for the whole window from sync_date through target_date. -/
theorem C9_counterexample :
    (collect_and_upload cxEnvTwoDays true "P1" 0 0 1).recordCount = 1 ∧
    (collect_and_upload cxEnvTwoDays true "P1" 0 0 1).dryRunHit = true ∧
    (collect_and_upload cxEnvTwoDays false "P1" 0 0 1).recordCount = 2 :=
  ⟨rfl, rfl, rfl⟩

/-- C9 as amended: a dry run never calls the sink (no parquet upload and no
raw-JSON upload) and never persists the watermark; but it computes intended
row counts only up to and including the first day with new anchor data,
returning early from the window. -/
theorem C9_dry_run_no_sink_no_persist (env : SyncEnv) (pid : String)
    (d0 : Nat) (e0 : Int) (t : Nat) :
    (collect_and_upload env true pid d0 e0 t).parquetCalls = [] ∧
    (collect_and_upload env true pid d0 e0 t).jsonCalls = [] ∧
    (collect_and_upload env true pid d0 e0 t).persists = [] :=
  syncDays_dry_effects env pid (t + 1 - d0) d0 e0 0

end UH

namespace UH

/-! ## Claim C3 -/

/-- Length of a Python list replication. -/
theorem pyListMul_length (vs : List J) : ∀ n, (pyListMul vs n).length = n * vs.length := by
  intro n
  induction n with
  | zero => simp [pyListMul]
  | succ m ih =>
      have hstep : pyListMul vs (m + 1) = vs ++ pyListMul vs m := by
        simp [pyListMul, List.replicate_succ]
      rw [hstep, List.length_append, ih, Nat.succ_mul]
      omega

/-- `max_length` is at least the starting accumulator. -/
theorem maxColLen_le_foldl (cols : List (String × List J)) :
    ∀ a : Nat, a ≤ cols.foldl (fun m kv => max m kv.2.length) a := by
  induction cols with
  | nil => exact fun a => le_rfl
  | cons kv rest ih =>
      intro a
      exact le_trans (le_max_left a kv.2.length) (ih (max a kv.2.length))

/-- C3 counterexample: with `fill=True`, an input whose columns have
lengths 2 and 3 keeps them at lengths 2 and 3 (only length-1 columns are
broadcast), so the output has columns of differing lengths — the claim
asserts all columns come out equal. -/
theorem C3_counterexample :
    (flatten_json_to_columns
        [("a", J.arr [J.i 1, J.i 2]), ("b", J.arr [J.i 1, J.i 2, J.i 3])]
        true "_" none).map (fun kv => kv.2.length) = [2, 3] ∧ (2 : Nat) ≠ 3 :=
  ⟨rfl, by decide⟩

/-- C3 as amended: `fill=True` broadcasts exactly the length-1 columns up
to `max_length`; therefore the output columns all have equal length
(`max_length`) whenever every flattened column's length is 1 or already
the maximum — not for arbitrary inputs. -/
theorem C3_fill_uniform (json_data : List (String × J)) (sep : String) (pid : Option String)
    (h : (rawColumns json_data sep pid).all
        (fun kv => kv.2.length == 1 ||
          kv.2.length == maxColLen (rawColumns json_data sep pid)) = true) :
    (flatten_json_to_columns json_data true sep pid).all
        (fun kv => kv.2.length == maxColLen (rawColumns json_data sep pid)) = true := by
  rw [List.all_eq_true] at h ⊢
  intro kv hkv
  rw [flatten_json_to_columns] at hkv
  simp only [List.mem_map] at hkv
  obtain ⟨kv0, hmem, heq⟩ := hkv
  have hlen := h kv0 hmem
  simp only [Bool.or_eq_true, beq_iff_eq] at hlen ⊢
  have hM1 : 1 ≤ maxColLen (rawColumns json_data sep pid) :=
    maxColLen_le_foldl (rawColumns json_data sep pid) 1
  by_cases hc : kv0.2.length = 1 ∧ 1 < maxColLen (rawColumns json_data sep pid)
  · rw [if_pos (by simp [hc.1, hc.2])] at heq
    subst heq
    simp only [pyListMul_length, hc.1, mul_one]
  · rw [if_neg (by simpa using fun h1 h2 => hc ⟨by simpa using h1, h2⟩)] at heq
    subst heq
    rcases hlen with h1 | hM
    · rcases Nat.lt_or_ge 1 (maxColLen (rawColumns json_data sep pid)) with hgt | hle
      · exact absurd ⟨h1, hgt⟩ hc
      · have hMeq : maxColLen (rawColumns json_data sep pid) = 1 := le_antisymm hle hM1
        simpa [hMeq] using h1
    · exact hM

/-- Witness for the amended C3: a record with one length-2 column and one
scalar column is broadcast to uniform length 2. -/
theorem C3_fill_uniform_witness :
    (flatten_json_to_columns [("a", J.arr [J.i 1, J.i 2]), ("b", J.s "x")]
        true "_" none).all
      (fun kv => kv.2.length ==
        maxColLen (rawColumns [("a", J.arr [J.i 1, J.i 2]), ("b", J.s "x")] "_" none)) = true :=
  C3_fill_uniform [("a", J.arr [J.i 1, J.i 2]), ("b", J.s "x")] "_" none (by decide)

end UH

namespace UH

/-! ## Claim C4: helper lemmas -/

/-- `String.toList` distributes over append. -/
theorem strToList_append (a b : String) : (a ++ b).toList = a.toList ++ b.toList :=
  String.data_append a b

/-- Appending a common tail is injective on strings. -/
theorem strAppend_cancel {a b suf : String} (h : a ++ suf = b ++ suf) : a = b := by
  have hd : a.data ++ suf.data = b.data ++ suf.data := by
    simpa [String.data_append] using congrArg String.data h
  exact congrArg String.mk (List.append_cancel_right hd)

/-- Names ending in `_iso8601` and names ending in `_iso8601_tz` never
coincide (the suffixes end in different characters). -/
theorem iso_ne_isoTz (a b : String) : a ++ "_iso8601" ≠ b ++ "_iso8601_tz" := by
  intro h
  have hd : a.data ++ "_iso8601".data = b.data ++ "_iso8601_tz".data := by
    simpa [String.data_append] using congrArg String.data h
  have h1 : "_iso8601".data <:+ b.data ++ "_iso8601_tz".data := hd ▸ List.suffix_append _ _
  have h2 : "_iso8601_tz".data <:+ b.data ++ "_iso8601_tz".data := List.suffix_append _ _
  rcases List.suffix_or_suffix_of_suffix h1 h2 with hs | hs
  · exact absurd hs (by decide)
  · exact absurd hs (by decide)

/-- A string with `suf` appended ends with `suf`. -/
theorem strEndsWith_append (a suf : String) : strEndsWith (a ++ suf) suf = true := by
  simp only [strEndsWith, List.isSuffixOf_iff_suffix, String.toList, String.data_append]
  exact List.suffix_append _ _

/-- `setKey` at a different key leaves a key's multiplicity unchanged. -/
theorem countKey_setKey_ne (R : List (String × J)) (key t : String) (v : J)
    (hne : key ≠ t) : countKey (setKey R key v) t = countKey R t := by
  induction R with
  | nil => simp [setKey, countKey, hne]
  | cons kv rest ih =>
      obtain ⟨k0, w⟩ := kv
      by_cases hk : k0 = key
      · simp [setKey, hk, countKey]
      · simp only [setKey, hk, if_false, countKey, ih]

/-- A key is present exactly when its multiplicity is positive. -/
theorem hasKey_false_iff (R : List (String × J)) (t : String) :
    hasKey R t = false ↔ countKey R t = 0 := by
  induction R with
  | nil => simp [hasKey, countKey]
  | cons kv rest ih =>
      obtain ⟨k0, w⟩ := kv
      by_cases hk : k0 = t
      · simp [hasKey, countKey, hk]
      · simp [hasKey, countKey, hk, ih]

/-- `setKey` at an absent key appends it, raising its multiplicity from 0
to 1. -/
theorem countKey_setKey_absent (R : List (String × J)) (t : String) (v : J)
    (h : countKey R t = 0) : countKey (setKey R t v) t = 1 := by
  induction R with
  | nil => simp [setKey, countKey]
  | cons kv rest ih =>
      obtain ⟨k0, w⟩ := kv
      simp only [countKey] at h
      by_cases hk : k0 = t
      · simp [hk] at h
      · simp only [setKey, countKey, hk, if_false] at h ⊢
        by_cases hk2 : k0 = t
        · exact absurd hk2 hk
        · simpa [hk] using ih (by omega)

/-- A key absent from the binding list has multiplicity 0. -/
theorem countKey_of_not_mem (R : List (String × J)) (t : String)
    (h : t ∉ keysOf R) : countKey R t = 0 := by
  induction R with
  | nil => rfl
  | cons kv rest ih =>
      obtain ⟨k0, w⟩ := kv
      simp only [keysOf, List.map_cons, List.mem_cons] at h
      push_neg at h
      have hne : k0 ≠ t := fun he => h.1 he.symm
      simp [countKey, hne, ih (by simpa [keysOf] using h.2)]

/-- The first pass of `_process_dict` preserves the key list. -/
theorem keysOf_convEntriesGo (step : J → J) (fields : List (String × J)) :
    keysOf (convEntriesGo step fields) = keysOf fields := by
  induction fields with
  | nil => rfl
  | cons kv rest ih =>
      obtain ⟨k0, v⟩ := kv
      simp [convEntriesGo, keysOf] at ih ⊢
      exact ih

/-- The timestamp keys recorded by the first pass are exactly the
timestamp-like keys, in order. -/
theorem tsKeys_eq_filter (fields : List (String × J)) :
    tsKeys fields = (keysOf fields).filter (fun k => isTimestampKey k) := by
  induction fields with
  | nil => rfl
  | cons kv rest ih =>
      obtain ⟨k0, v⟩ := kv
      simp only [tsKeys, List.filterMap_cons, keysOf, List.map_cons, List.filter_cons] at ih ⊢
      by_cases hts : isTimestampKey k0 = true
      · simp [hts, ih, tsKeys, keysOf]
      · simp only [Bool.not_eq_true] at hts
        simp [hts, ih, tsKeys, keysOf]

/-- `addTsKeys` is the fold of the single step. -/
theorem addTsKeys_eq_foldl (tz : Option String) (R : List (String × J))
    (keys : List String) : addTsKeys tz R keys = keys.foldl (addTsStep tz) R := rfl

/-- A second-pass step over keys whose derived names differ from `t` does
not change `t`'s multiplicity. -/
theorem countKey_addTsStep_ne (tz : Option String) (R : List (String × J))
    (k2 t : String) (h1 : k2 ++ "_iso8601" ≠ t) (h2 : k2 ++ "_iso8601_tz" ≠ t) :
    countKey (addTsStep tz R k2) t = countKey R t := by
  unfold addTsStep
  split
  · rw [countKey_setKey_ne _ _ _ _ h2, countKey_setKey_ne _ _ _ _ h1]
  · rw [countKey_setKey_ne _ _ _ _ h1]

/-- Folding second-pass steps over keys whose derived names all differ
from `t` preserves `t`'s multiplicity. -/
theorem countKey_addTsFold_ne (tz : Option String) (keys : List String) :
    ∀ R t, (∀ k2 ∈ keys, k2 ++ "_iso8601" ≠ t ∧ k2 ++ "_iso8601_tz" ≠ t) →
      countKey (keys.foldl (addTsStep tz) R) t = countKey R t := by
  induction keys with
  | nil => exact fun R t _ => rfl
  | cons k2 rest ih =>
      intro R t h
      have hk2 := h k2 (List.mem_cons_self _ _)
      rw [List.foldl_cons, ih _ t (fun x hx => h x (List.mem_cons_of_mem _ hx)),
        countKey_addTsStep_ne tz R k2 t hk2.1 hk2.2]

end UH

namespace UH

/-- One second-pass step at `k` itself gives `k_iso8601` multiplicity 1
when it was absent. -/
theorem countKey_addTsStep_self1 (tz : Option String) (R : List (String × J)) (k : String)
    (h : countKey R (k ++ "_iso8601") = 0) :
    countKey (addTsStep tz R k) (k ++ "_iso8601") = 1 := by
  unfold addTsStep
  split
  · rw [countKey_setKey_ne _ _ _ _ (iso_ne_isoTz k k).symm]
    exact countKey_setKey_absent _ _ _ h
  · exact countKey_setKey_absent _ _ _ h

/-- One second-pass step at `k` itself gives `k_iso8601_tz` multiplicity 1
exactly when the timezone is truthy, when it was absent. -/
theorem countKey_addTsStep_self2 (tz : Option String) (R : List (String × J)) (k : String)
    (h : countKey R (k ++ "_iso8601_tz") = 0) :
    countKey (addTsStep tz R k) (k ++ "_iso8601_tz") = (if tzTruthy tz then 1 else 0) := by
  unfold addTsStep
  split
  · exact countKey_setKey_absent _ _ _
      ((countKey_setKey_ne R _ _ _ (iso_ne_isoTz k k)).trans h)
  · exact (countKey_setKey_ne R _ _ _ (iso_ne_isoTz k k)).trans h

/-- The second pass gives a recorded timestamp key `k` (occurring once
among the recorded keys) exactly one `k_iso8601` binding, and exactly one
`k_iso8601_tz` binding when the timezone is truthy and none otherwise,
provided neither derived name was already bound. -/
theorem addTsKeys_counts (tz : Option String) (R : List (String × J))
    (keys : List String) (k : String) (hnodup : keys.Nodup) (hkmem : k ∈ keys)
    (hf1 : countKey R (k ++ "_iso8601") = 0)
    (hf2 : countKey R (k ++ "_iso8601_tz") = 0) :
    countKey (addTsKeys tz R keys) (k ++ "_iso8601") = 1 ∧
    countKey (addTsKeys tz R keys) (k ++ "_iso8601_tz")
      = (if tzTruthy tz then 1 else 0) := by
  obtain ⟨L1, L2, rfl⟩ := List.append_of_mem hkmem
  rw [List.nodup_append] at hnodup
  have hnd1 : k ∉ L1 := fun hk1 => hnodup.2.2 hk1 (List.mem_cons_self _ _)
  have hnd2 : k ∉ L2 := (List.nodup_cons.mp hnodup.2.1).1
  rw [addTsKeys_eq_foldl, List.foldl_append, List.foldl_cons]
  have hL1a : ∀ k2 ∈ L1, k2 ++ "_iso8601" ≠ k ++ "_iso8601" ∧
      k2 ++ "_iso8601_tz" ≠ k ++ "_iso8601" :=
    fun k2 hk2 => ⟨fun he => hnd1 (strAppend_cancel he ▸ hk2), (iso_ne_isoTz k k2).symm⟩
  have hL1b : ∀ k2 ∈ L1, k2 ++ "_iso8601" ≠ k ++ "_iso8601_tz" ∧
      k2 ++ "_iso8601_tz" ≠ k ++ "_iso8601_tz" :=
    fun k2 hk2 => ⟨iso_ne_isoTz k2 k, fun he => hnd1 (strAppend_cancel he ▸ hk2)⟩
  have h1 : countKey (L1.foldl (addTsStep tz) R) (k ++ "_iso8601") = 0 := by
    rw [countKey_addTsFold_ne tz L1 R _ hL1a]; exact hf1
  have h2 : countKey (L1.foldl (addTsStep tz) R) (k ++ "_iso8601_tz") = 0 := by
    rw [countKey_addTsFold_ne tz L1 R _ hL1b]; exact hf2
  have hstep1 := countKey_addTsStep_self1 tz (L1.foldl (addTsStep tz) R) k h1
  have hstep2 := countKey_addTsStep_self2 tz (L1.foldl (addTsStep tz) R) k h2
  have hL2a : ∀ k2 ∈ L2, k2 ++ "_iso8601" ≠ k ++ "_iso8601" ∧
      k2 ++ "_iso8601_tz" ≠ k ++ "_iso8601" :=
    fun k2 hk2 => ⟨fun he => hnd2 (strAppend_cancel he ▸ hk2), (iso_ne_isoTz k k2).symm⟩
  have hL2b : ∀ k2 ∈ L2, k2 ++ "_iso8601" ≠ k ++ "_iso8601_tz" ∧
      k2 ++ "_iso8601_tz" ≠ k ++ "_iso8601_tz" :=
    fun k2 hk2 => ⟨iso_ne_isoTz k2 k, fun he => hnd2 (strAppend_cancel he ▸ hk2)⟩
  exact ⟨by rw [countKey_addTsFold_ne tz L2 _ _ hL2a]; exact hstep1,
    by rw [countKey_addTsFold_ne tz L2 _ _ hL2b]; exact hstep2⟩

/-! ## Claim C4 -/

/-- C4 counterexample: calling the normalizer with the timezone argument
`""` — a supplied timezone argument, but falsy in Python — adds the
`_iso8601` sibling yet no `_iso8601_tz` sibling, though the claim requires
one exactly when a timezone argument was supplied. -/
theorem C4_counterexample :
    (some "" : Option String).isSome = true ∧
    countKey (objFieldsOf (convert_dict_timestamps
      (J.obj [("timestamp", J.i 1672531200)]) (some ""))) "timestamp_iso8601" = 1 ∧
    countKey (objFieldsOf (convert_dict_timestamps
      (J.obj [("timestamp", J.i 1672531200)]) (some ""))) "timestamp_iso8601_tz" = 0 :=
  ⟨rfl, rfl, rfl⟩

/-- C4 as amended: for a dict with distinct keys none of which already ends
in `_iso8601` or `_iso8601_tz`, every timestamp-like key `k` gets exactly
one sibling `k_iso8601`, and exactly one sibling `k_iso8601_tz` iff a
non-empty (truthy) timezone string was supplied; numeric values are
rendered through the UTC `YYYY-MM-DDTHH:MM:SSZ` renderer, non-numeric
values pass through unchanged, and unconvertible (out-of-range) numeric
values come back as their decimal string rather than raising. -/
theorem C4_timestamp_siblings (fields : List (String × J)) (tz : Option String)
    (k : String) (n : Int) (str : String)
    (hnd : (keysOf fields).Nodup)
    (hcol : ∀ k2 ∈ keysOf fields,
      strEndsWith k2 "_iso8601" = false ∧ strEndsWith k2 "_iso8601_tz" = false)
    (hk : k ∈ keysOf fields) (hts : isTimestampKey k = true) :
    countKey (objFieldsOf (convert_dict_timestamps (J.obj fields) tz)) (k ++ "_iso8601") = 1 ∧
    countKey (objFieldsOf (convert_dict_timestamps (J.obj fields) tz)) (k ++ "_iso8601_tz")
      = (if tzTruthy tz then 1 else 0) ∧
    processTsValue (J.s str) tz = J.s str ∧
    processTsValue J.null tz = J.null ∧
    ((n < tsMin ∨ tsMax < n) → convertUnixToIso8601 n tz = toString n) ∧
    (tsMin ≤ n → n ≤ tsMax → convertUnixToIso8601 n none = isoUtcZ n) := by
  have hunf : objFieldsOf (convert_dict_timestamps (J.obj fields) tz)
      = addTsKeys tz (convEntriesGo (convValF (sizeJ (J.obj fields)) tz) fields)
          (tsKeys fields) := rfl
  have hkeys : keysOf (convEntriesGo (convValF (sizeJ (J.obj fields)) tz) fields)
      = keysOf fields := keysOf_convEntriesGo _ _
  have htsnd : (tsKeys fields).Nodup := by
    rw [tsKeys_eq_filter]; exact hnd.filter _
  have hkmem : k ∈ tsKeys fields := by
    rw [tsKeys_eq_filter]; exact List.mem_filter.mpr ⟨hk, hts⟩
  have hf1 : countKey (convEntriesGo (convValF (sizeJ (J.obj fields)) tz) fields)
      (k ++ "_iso8601") = 0 := by
    apply countKey_of_not_mem
    rw [hkeys]
    intro hmem
    have hh := (hcol _ hmem).1
    rw [strEndsWith_append] at hh
    exact Bool.true_eq_false.mp hh
  have hf2 : countKey (convEntriesGo (convValF (sizeJ (J.obj fields)) tz) fields)
      (k ++ "_iso8601_tz") = 0 := by
    apply countKey_of_not_mem
    rw [hkeys]
    intro hmem
    have hh := (hcol _ hmem).2
    rw [strEndsWith_append] at hh
    exact Bool.true_eq_false.mp hh
  obtain ⟨hc1, hc2⟩ := addTsKeys_counts tz _ (tsKeys fields) k htsnd hkmem hf1 hf2
  refine ⟨by rw [hunf]; exact hc1, by rw [hunf]; exact hc2, rfl, rfl, ?_, ?_⟩
  · intro h
    unfold convertUnixToIso8601
    rw [if_pos (by rcases h with h | h <;> simp [h])]
  · intro h1 h2
    unfold convertUnixToIso8601
    rw [if_neg (by simp only [Bool.or_eq_true, decide_eq_true_eq, not_or]; omega)]

/-- Witness for the amended C4 on the single-key dict of the source's
docstring example, with the Phoenix timezone. -/
theorem C4_timestamp_siblings_witness :
    countKey (objFieldsOf (convert_dict_timestamps
      (J.obj [("timestamp", J.i 1672531200)]) (some "America/Phoenix")))
      ("timestamp" ++ "_iso8601") = 1 ∧
    countKey (objFieldsOf (convert_dict_timestamps
      (J.obj [("timestamp", J.i 1672531200)]) (some "America/Phoenix")))
      ("timestamp" ++ "_iso8601_tz") = (if tzTruthy (some "America/Phoenix") then 1 else 0) ∧
    processTsValue (J.s "hello") (some "America/Phoenix") = J.s "hello" ∧
    processTsValue J.null (some "America/Phoenix") = J.null ∧
    (((253402300800 : Int) < tsMin ∨ tsMax < (253402300800 : Int)) →
      convertUnixToIso8601 253402300800 (some "America/Phoenix") = toString (253402300800 : Int)) ∧
    (tsMin ≤ (253402300800 : Int) → (253402300800 : Int) ≤ tsMax →
      convertUnixToIso8601 253402300800 none = isoUtcZ 253402300800) :=
  C4_timestamp_siblings [("timestamp", J.i 1672531200)] (some "America/Phoenix")
    "timestamp" 253402300800 "hello" (by decide) (by decide) (by decide) (by decide)

end UH
